import Mathlib

/-!
Verification of the AC NES ROM GCI generator (`ac_nesrom_gen/__main__.py`)
against its natural-language specification.

The Python source is shallowly embedded: byte strings become `List Nat`
(each element one byte value), machine integers become `Nat`/`Int` with
explicit `% 2 ^ w` where wrap-around matters, and fallible operations
(the `raise` in `create_pat`, and `struct.pack` range errors) return
`Except`.  The `while` loop of `block_count` is embedded step-indexed
(fuel-based), so that its termination and its divergence at block size 0
are both expressible.
-/

/-- Memory card block size: `BLOCK_SZ = 0x2000`. -/
def BLOCK_SZ : Nat := 0x2000

/-- Step-indexed embedding of the loop in `block_count`:
`blocks = 0; while (block_size * blocks) < data_size: blocks += 1`.
`fuel` bounds the number of loop iterations; `none` means the loop has not
finished within `fuel` steps. -/
def blockCountLoop : Nat → Nat → Nat → Nat → Option Nat
  | 0, _, _, _ => none
  | fuel + 1, data_size, block_size, blocks =>
      if block_size * blocks < data_size then
        blockCountLoop fuel data_size block_size (blocks + 1)
      else
        some blocks

/-- Embedding of `block_count(data_size, block_size)`: the number of blocks
of the given size required to hold the data.  `data_size + 1` iterations always suffice
when `block_size ≥ 1` (proved below); for `block_size = 0` and positive data
the Python loop diverges, so the `getD 0` default is never what the Python
program returns there. -/
def block_count (data_size block_size : Nat) : Nat :=
  (blockCountLoop (data_size + 1) data_size block_size 0).getD 0

/-- Embedding of `block_align(data_size, block_size)`: size of a buffer
that is a multiple of the block size and can contain the data
(`block_count(data_size, block_size) * block_size`). -/
def block_align (data_size block_size : Nat) : Nat :=
  block_count data_size block_size * block_size

theorem blockCountLoop_sound (d n : Nat) :
    ∀ fuel b r, blockCountLoop fuel d n b = some r →
      d ≤ n * r ∧ b ≤ r ∧ ∀ k, b ≤ k → k < r → n * k < d := by
  intro fuel
  induction fuel with
  | zero => intro b r h; simp [blockCountLoop] at h
  | succ fuel ih =>
      intro b r h
      by_cases hc : n * b < d
      · rw [blockCountLoop, if_pos hc] at h
        obtain ⟨h1, h2, h3⟩ := ih (b + 1) r h
        refine ⟨h1, Nat.le_trans (Nat.le_succ b) h2, ?_⟩
        intro k hbk hkr
        rcases Nat.eq_or_lt_of_le hbk with he | hl
        · rw [← he]; exact hc
        · exact h3 k hl hkr
      · rw [blockCountLoop, if_neg hc] at h
        obtain rfl : b = r := Option.some.inj h
        exact ⟨Nat.le_of_not_lt hc, Nat.le_refl b,
          fun k hbk hkr => absurd hkr (Nat.not_lt.mpr hbk)⟩

theorem blockCountLoop_complete (d n : Nat) (hn : 0 < n) :
    ∀ fuel b, d ≤ n * b + fuel → ∃ r, blockCountLoop (fuel + 1) d n b = some r := by
  intro fuel
  induction fuel with
  | zero =>
      intro b hb
      refine ⟨b, ?_⟩
      rw [blockCountLoop, if_neg (Nat.not_lt.mpr (by simpa using hb))]
  | succ fuel ih =>
      intro b hb
      by_cases hc : n * b < d
      · obtain ⟨r, hr⟩ := ih (b + 1) (by rw [Nat.mul_add, Nat.mul_one]; omega)
        exact ⟨r, by rw [blockCountLoop, if_pos hc]; exact hr⟩
      · exact ⟨b, by rw [blockCountLoop, if_neg hc]⟩

theorem blockCountLoop_zero_none (d : Nat) (hd : 0 < d) :
    ∀ fuel b, blockCountLoop fuel d 0 b = none := by
  intro fuel
  induction fuel with
  | zero => intro b; rfl
  | succ fuel ih =>
      intro b
      rw [blockCountLoop, if_pos (by simpa using hd)]
      exact ih (b + 1)

theorem block_count_eq_loop (d n : Nat) (hn : 0 < n) :
    blockCountLoop (d + 1) d n 0 = some (block_count d n) := by
  obtain ⟨r, hr⟩ := blockCountLoop_complete d n hn d 0 (by omega)
  rw [hr, block_count, hr]
  rfl

/-- Characterization of `block_count`: for a positive block size it is the
smallest count whose blocks cover the data. -/
theorem block_count_spec (d n : Nat) (hn : 0 < n) :
    d ≤ n * block_count d n ∧ ∀ k, d ≤ n * k → block_count d n ≤ k := by
  have hr := block_count_eq_loop d n hn
  have hs := blockCountLoop_sound d n (d + 1) 0 (block_count d n) hr
  refine ⟨hs.1, ?_⟩
  intro k hk
  by_contra hlt
  push_neg at hlt
  exact absurd hk (Nat.not_le.mpr (hs.2.2 k (Nat.zero_le k) hlt))

theorem block_count_zero (n : Nat) : block_count 0 n = 0 := by
  simp [block_count, blockCountLoop]

theorem block_count_mul (N n : Nat) (hn : 0 < n) :
    block_count (N * n) n = N := by
  obtain ⟨h1, h2⟩ := block_count_spec (N * n) n hn
  have hle : block_count (N * n) n ≤ N := h2 N (by rw [Nat.mul_comm])
  have hge : N ≤ block_count (N * n) n := by
    refine Nat.le_of_mul_le_mul_left ?_ hn
    rw [Nat.mul_comm n N]
    exact h1
  omega

theorem block_align_ge (d n : Nat) (hn : 0 < n) : d ≤ block_align d n := by
  have h := (block_count_spec d n hn).1
  rw [block_align, Nat.mul_comm]
  exact h

theorem block_align_lt (d n : Nat) (hn : 0 < n) : block_align d n < d + n := by
  rw [block_align]
  rcases Nat.eq_zero_or_pos (block_count d n) with h0 | hpos
  · rw [h0]; omega
  · have hmin := (block_count_spec d n hn).2 (block_count d n - 1)
    by_contra hge
    push_neg at hge
    have hd : d ≤ n * (block_count d n - 1) := by
      have : (block_count d n - 1) * n = block_count d n * n - n := by
        rw [Nat.sub_mul, Nat.one_mul]
      rw [Nat.mul_comm, this]
      omega
    have := hmin hd
    omega

theorem block_align_idem (d n : Nat) (hn : 0 < n) :
    block_align (block_align d n) n = block_align d n := by
  rw [block_align, block_align, block_count_mul _ _ hn]

/-- ASCII bytes of the tag string passed in `tag_header('PAT', ...)`. -/
def PAT : List Nat := [80, 65, 84]

/-- ASCII bytes of the sentinel tag `'ZZZ'`. -/
def ZZZ : List Nat := [90, 90, 90]

/-- ASCII bytes of the terminator tag `'END'`. -/
def ENDTAG : List Nat := [69, 78, 68]

/-- Embedding of `struct.pack('>H', value)` (big-endian 16-bit). -/
def pack_short (value : Nat) : List Nat :=
  [value / 2 ^ 8 % 2 ^ 8, value % 2 ^ 8]

/-- Embedding of `struct.pack('>I', value)` (big-endian 32-bit). -/
def pack_int (value : Nat) : List Nat :=
  [value / 2 ^ 24 % 2 ^ 8, value / 2 ^ 16 % 2 ^ 8, value / 2 ^ 8 % 2 ^ 8,
   value % 2 ^ 8]

/-- Embedding of `tag_header(tag, size) = struct.pack('>3sB', tag, size)`:
the 3 ASCII bytes of the tag followed by the one-byte size.  Every call site
passes a 3-character tag and a size at most 255. -/
def tag_header (tag : List Nat) (size : Nat) : List Nat := tag ++ [size]

/-- Failure modes of `create_pat`: the explicit
`raise Exception('payload too big')`, and the range error that
`struct.pack` raises when `off_high` does not fit the `B` (unsigned byte)
format. -/
inductive PatError
  | payloadTooBig
  | structRangeError
deriving DecidableEq

/-- Embedding of `create_pat(target_addr, payload)`.  `>> 16` and `& 0xFFFF`
on a non-negative integer are `/ 2 ^ 16` and `% 2 ^ 16`; the subtraction
`- 0x7F80` is over `Int`, as in Python, and packing `off_high` with format
`B` fails unless `0 ≤ off_high < 256`. -/
def create_pat (target_addr : Nat) (payload : List Nat) :
    Except PatError (List Nat) :=
  if 251 < payload.length then .error .payloadTooBig
  else
    let off_high : Int := ((target_addr / 2 ^ 16 % 2 ^ 16 : Nat) : Int) - 0x7F80
    let off_low : Nat := target_addr % 2 ^ 16
    if 0 ≤ off_high ∧ off_high < 256 then
      let tag_data : List Nat :=
        [off_high.toNat, payload.length, off_low / 2 ^ 8, off_low % 2 ^ 8] ++
          payload
      .ok (tag_header PAT tag_data.length ++ tag_data)
    else .error .structRangeError

/-- Embedding of `create_tag_buffer(tags)`: the `'ZZZ'` sentinel header, the
concatenation of the given tag records in order (`''.join(tags)`), then the
`'END'` terminator header. -/
def create_tag_buffer (tags : List (List Nat)) : List Nat :=
  tag_header ZZZ 0 ++ tags.flatten ++ tag_header ENDTAG 0

/-- Modelled from the spec: the runtime decoder of a single `PAT` record is
not part of this repository, so this decoder follows the record layout the
spec gives in §4.2 (fixed 3-byte ASCII tag `"PAT"`, one size byte equal to
`4 + len(payload)`, one `off_high` byte, one payload-length byte, big-endian
`off_low`, then the payload verbatim), recovering the target address as
`(off_high + 0x7F80) * 2 ^ 16 + off_low`. -/
def decode_pat (record : List Nat) : Option (Nat × List Nat) :=
  match record with
  | t0 :: t1 :: t2 :: size :: oh :: plen :: lo1 :: lo0 :: rest =>
      if [t0, t1, t2] = PAT ∧ size = 4 + rest.length ∧ plen = rest.length then
        some ((oh + 0x7F80) * 2 ^ 16 + (lo1 * 2 ^ 8 + lo0), rest)
      else none
  | _ => none

instance {ε α : Type} [DecidableEq ε] [DecidableEq α] :
    DecidableEq (Except ε α) := fun x y =>
  match x, y with
  | .ok a, .ok b =>
      if h : a = b then .isTrue (congrArg Except.ok h)
      else .isFalse (fun hc => h (Except.ok.inj hc))
  | .error a, .error b =>
      if h : a = b then .isTrue (congrArg Except.error h)
      else .isFalse (fun hc => h (Except.error.inj hc))
  | .ok _, .error _ => .isFalse (fun hc => Except.noConfusion hc)
  | .error _, .ok _ => .isFalse (fun hc => Except.noConfusion hc)

/-- True when an `Except` computation succeeded. -/
def isOkE {ε α : Type} (e : Except ε α) : Bool :=
  match e with
  | .ok _ => true
  | .error _ => false

/-- Embedding of the checksum accumulation loop in `main`:
`checksum += b & 0xFF; checksum &= 0xFFFFFFFF` over every byte of the
assembled buffer, starting from 0. -/
def checksum_loop (buf : List Nat) : Nat :=
  buf.foldl (fun acc b => (acc + b % 2 ^ 8) % 2 ^ 32) 0

/-- Embedding of `checkbyte = 256 - (checksum & 0xFF)` in `main`.  Note the
source performs no reduction modulo 256 afterwards. -/
def checkbyte (buf : List Nat) : Nat := 256 - checksum_loop buf % 2 ^ 8

/-- Embedding of
`total_len = 0x660 + len(romfile) + banner_len + tag_info_len` in `main`
(the raw, unaligned region lengths). -/
def total_len (tag_info_len banner_len rom_len : Nat) : Nat :=
  0x660 + rom_len + banner_len + tag_info_len

/-- Embedding of `new_count = max(1, block_count(total_len, BLOCK_SZ))`. -/
def new_count (total : Nat) : Nat := max 1 (block_count total BLOCK_SZ)

/-- Modelled from the spec: the total length as §4.4 step 4 words it,
`0x660` plus each region's 16-byte block-aligned contribution.  Written only
to be compared against `total_len`, which the code computes from the raw
lengths. -/
def total_len_speced (tag_info_len banner_len rom_len : Nat) : Nat :=
  0x660 + block_align tag_info_len 16 + block_align banner_len 16 +
    block_align rom_len 16

/-- ASCII bytes of the magic string `'Yaz0'`. -/
def YAZ0 : List Nat := [89, 97, 122, 48]

/-- Embedding of `struct.unpack('>I', bs)[0]` on a 4-byte slice. -/
def unpack_int (bs : List Nat) : Nat :=
  match bs with
  | [b0, b1, b2, b3] => ((b0 * 2 ^ 8 + b1) * 2 ^ 8 + b2) * 2 ^ 8 + b3
  | _ => 0

/-- Embedding of the loader header built under `--autoheader`:
`struct.pack('>IIII', 1, auto_target, len(romfile), 1)` — patch count 1,
target address, big-patch size, executable flag 1. -/
def loader_header (auto_target rom_len : Nat) : List Nat :=
  pack_int 1 ++ pack_int auto_target ++ pack_int rom_len ++ pack_int 1

/-- Embedding of `romfile = loader_header + romfile` under `--autoheader`
(the header is built from the length of the original file). -/
def autoheader_transform (auto_target : Nat) (romfile : List Nat) : List Nat :=
  loader_header auto_target romfile.length ++ romfile

/-- Embedding of the `nes_rom_len` computation in `main`: the size read from
the `Yaz0` header when the file is compressed and no loader is inserted,
otherwise the file length. -/
def nes_rom_len (loader : Bool) (romfile : List Nat) : Nat :=
  if romfile.take 4 = YAZ0 ∧ loader = false then
    unpack_int ((romfile.drop 4).take 4)
  else romfile.length

/-- Embedding of the declared uncompressed-ROM-size field written at offset
`0x640 + 0x12`: `pack_short(nes_rom_len >> 4)` (16-byte units). -/
def declared_rom_size (loader : Bool) (romfile : List Nat) : List Nat :=
  pack_short (nes_rom_len loader romfile / 2 ^ 4)

/-- C9: for every size `s` and positive block size `n`, `block_align` is
idempotent, at least `s`, and less than `s + n`; and `block_count s n` is
the smallest non-negative count whose blocks cover `s`, returning 0 for
`s = 0`. -/
theorem claim_C9_block_arith (s n : Nat) (hn : 0 < n) :
    block_align (block_align s n) n = block_align s n ∧
    s ≤ block_align s n ∧
    block_align s n < s + n ∧
    s ≤ block_count s n * n ∧
    (∀ k, s ≤ k * n → block_count s n ≤ k) ∧
    block_count 0 n = 0 := by
  refine ⟨block_align_idem s n hn, block_align_ge s n hn, block_align_lt s n hn,
    ?_, ?_, block_count_zero n⟩
  · rw [Nat.mul_comm]
    exact (block_count_spec s n hn).1
  · intro k hk
    exact (block_count_spec s n hn).2 k (by rw [Nat.mul_comm]; exact hk)

/-- Witness for C9 at `s = 5`, `n = 3` (and minimality instantiated at
`k = 2`). -/
theorem claim_C9_block_arith_witness :
    0 < 3 ∧ block_align (block_align 5 3) 3 = block_align 5 3 ∧
    5 ≤ block_align 5 3 ∧ block_align 5 3 < 5 + 3 ∧
    5 ≤ block_count 5 3 * 3 ∧ block_count 5 3 ≤ 2 ∧ block_count 0 3 = 0 :=
  ⟨by decide, (claim_C9_block_arith 5 3 (by decide)).1,
   (claim_C9_block_arith 5 3 (by decide)).2.1,
   (claim_C9_block_arith 5 3 (by decide)).2.2.1,
   (claim_C9_block_arith 5 3 (by decide)).2.2.2.1,
   (claim_C9_block_arith 5 3 (by decide)).2.2.2.2.1 2 (by decide),
   (claim_C9_block_arith 5 3 (by decide)).2.2.2.2.2⟩

/-- C10: the loop in `block_count` terminates for every data size when the
block size is positive (`data_size + 1` iterations suffice, and the value
returned is `block_count`); positivity is necessary, since with block size 0
and positive data size no iteration bound makes the loop finish. -/
theorem claim_C10_block_count_terminates :
    (∀ d n, 0 < n → blockCountLoop (d + 1) d n 0 = some (block_count d n)) ∧
    (∀ d fuel, 0 < d → blockCountLoop fuel d 0 0 = none) := by
  constructor
  · intro d n hn
    exact block_count_eq_loop d n hn
  · intro d fuel hd
    exact blockCountLoop_zero_none d hd fuel 0

/-- Witness for C10 at `d = 7, n = 3` (terminates) and at
`d = 5, n = 0, fuel = 9` (no finite iteration bound suffices). -/
theorem claim_C10_block_count_terminates_witness :
    blockCountLoop 8 7 3 0 = some (block_count 7 3) ∧
    blockCountLoop 9 5 0 0 = none :=
  ⟨claim_C10_block_count_terminates.1 7 3 (by decide),
   claim_C10_block_count_terminates.2 5 9 (by decide)⟩

/-- C2 counterexample: with tag buffer length 8 (the empty frame), no
banner, and a 1-byte ROM, the code computes `total_len = 0x669` from the
raw lengths, not the `0x680` that the claim's block-aligned formula
gives. -/
theorem claim_C2_counterexample :
    total_len 8 0 1 = 0x669 ∧ total_len_speced 8 0 1 = 0x680 ∧
    total_len 8 0 1 ≠ total_len_speced 8 0 1 := by decide

/-- C2 amended: the assembler computes `total_len` as 0x660 plus the raw
(unaligned) region lengths; the required block count is
`max(1, block_count(total_len, 0x2000))`; and a total content length of
exactly `N * 0x2000` with `N ≥ 1` yields `BlockCount = N`, not `N + 1`. -/
theorem claim_C2_total_len (t b p N : Nat) (hN : 1 ≤ N) :
    total_len t b p = 0x660 + p + b + t ∧
    new_count (total_len t b p) =
      max 1 (block_count (0x660 + p + b + t) BLOCK_SZ) ∧
    new_count (N * BLOCK_SZ) = N := by
  refine ⟨rfl, rfl, ?_⟩
  rw [new_count, block_count_mul N BLOCK_SZ (by decide)]
  exact Nat.max_eq_right hN

/-- Witness for C2 (amended) at tag length 8, banner length 0, ROM length 1,
`N = 3`. -/
theorem claim_C2_total_len_witness :
    1 ≤ 3 ∧ (total_len 8 0 1 = 0x660 + 1 + 0 + 8 ∧
      new_count (total_len 8 0 1) =
        max 1 (block_count (0x660 + 1 + 0 + 8) BLOCK_SZ) ∧
      new_count (3 * BLOCK_SZ) = 3) :=
  ⟨by decide, claim_C2_total_len 8 0 1 3 (by decide)⟩

/-- C1: code-bug evidence.  On the buffer `[0]` (length 1, last byte zero at
compute time, byte sum ≡ 0 mod 256) the code computes the check byte
`256 - 0 = 256`, which is not a byte value (a Python `bytearray` assignment
of 256 raises `ValueError`), while the claim's formula
`(256 - sum mod 256) mod 256` gives 0. -/
theorem claim_C1_checkbyte_overflow :
    checksum_loop [0] = 0 ∧ checkbyte [0] = 256 ∧ ¬ checkbyte [0] < 256 ∧
    (256 - checksum_loop [0] % 2 ^ 8) % 2 ^ 8 = 0 := by decide

/-- C5: `create_tag_buffer` returns the 4-byte zero-size `'ZZZ'` sentinel
record, the given records concatenated in order, then the 4-byte zero-size
`'END'` terminator record; on the empty list it is exactly the 8-byte
`sentinel ++ terminator`. -/
theorem claim_C5_tag_buffer (tags : List (List Nat)) :
    create_tag_buffer tags =
      [90, 90, 90, 0] ++ tags.flatten ++ [69, 78, 68, 0] ∧
    create_tag_buffer ([] : List (List Nat)) =
      [90, 90, 90, 0] ++ [69, 78, 68, 0] ∧
    (create_tag_buffer ([] : List (List Nat))).length = 8 :=
  ⟨rfl, rfl, rfl⟩

/-- C6 counterexample: for the single patch `{0x80001000, [0xAA] * 4}` the
encoded `PAT` record is 12 bytes (4-byte tag header plus 8-byte body), so
the tag buffer is `4 + 12 + 4 = 20` bytes long, not the 16 the claim
states. -/
theorem claim_C6_counterexample :
    create_pat 0x80001000 [170, 170, 170, 170] =
      .ok [80, 65, 84, 8, 128, 4, 16, 0, 170, 170, 170, 170] ∧
    (create_tag_buffer
      [[80, 65, 84, 8, 128, 4, 16, 0, 170, 170, 170, 170]]).length = 20 ∧
    (20 : Nat) ≠ 16 := by decide

/-- C6 amended: for one patch `{address = 0x80001000, payload = [0xAA] * 4}`
and no loader, the tag buffer is the sentinel, exactly one `PAT` record with
body size 8 (4 addressing bytes plus 4 payload bytes; 12 bytes in all with
its tag header), and the terminator, so `tag_info_len = 4 + 12 + 4 = 20`. -/
theorem claim_C6_scenario_B :
    create_pat 0x80001000 [170, 170, 170, 170] =
      .ok [80, 65, 84, 8, 128, 4, 16, 0, 170, 170, 170, 170] ∧
    create_tag_buffer [[80, 65, 84, 8, 128, 4, 16, 0, 170, 170, 170, 170]] =
      [90, 90, 90, 0] ++ [80, 65, 84, 8, 128, 4, 16, 0, 170, 170, 170, 170] ++
        [69, 78, 68, 0] ∧
    ([80, 65, 84, 8, 128, 4, 16, 0, 170, 170, 170, 170] : List Nat).length = 12 ∧
    (create_tag_buffer
      [[80, 65, 84, 8, 128, 4, 16, 0, 170, 170, 170, 170]]).length = 20 := by
  decide

theorem create_pat_ok (a : Nat) (p : List Nat) (hp : p.length ≤ 251)
    (h1 : 0x7F80 ≤ a / 2 ^ 16 % 2 ^ 16) (h2 : a / 2 ^ 16 % 2 ^ 16 ≤ 0x807F) :
    create_pat a p = .ok (PAT ++ [4 + p.length] ++
      [a / 2 ^ 16 % 2 ^ 16 - 0x7F80, p.length, a % 2 ^ 16 / 2 ^ 8,
       a % 2 ^ 16 % 2 ^ 8] ++ p) := by
  have hlen : ¬ 251 < p.length := Nat.not_lt.mpr hp
  have hcond : (0 : Int) ≤ ((a / 2 ^ 16 % 2 ^ 16 : Nat) : Int) - 0x7F80 ∧
      ((a / 2 ^ 16 % 2 ^ 16 : Nat) : Int) - 0x7F80 < 256 := by
    constructor <;> omega
  have htn : (((a / 2 ^ 16 % 2 ^ 16 : Nat) : Int) - 0x7F80).toNat =
      a / 2 ^ 16 % 2 ^ 16 - 0x7F80 := by omega
  simp only [create_pat]
  rw [if_neg hlen, if_pos hcond, htn]
  have hl4 : ([a / 2 ^ 16 % 2 ^ 16 - 0x7F80, p.length, a % 2 ^ 16 / 2 ^ 8,
      a % 2 ^ 16 % 2 ^ 8] ++ p).length = 4 + p.length := by
    simp
    omega
  rw [hl4]
  rfl

theorem create_pat_too_big (a : Nat) (p : List Nat) (hl : 251 < p.length) :
    create_pat a p = .error .payloadTooBig := by
  rw [create_pat, if_pos hl]

theorem create_pat_not_too_big (a : Nat) (p : List Nat) (hl : ¬ 251 < p.length) :
    create_pat a p ≠ .error .payloadTooBig := by
  simp only [create_pat]
  rw [if_neg hl]
  split <;> simp

theorem create_pat_struct_err (a : Nat) (p : List Nat) (hl : ¬ 251 < p.length)
    (h : a / 2 ^ 16 % 2 ^ 16 < 0x7F80 ∨ 0x807F < a / 2 ^ 16 % 2 ^ 16) :
    create_pat a p = .error .structRangeError := by
  have hcond : ¬ ((0 : Int) ≤ ((a / 2 ^ 16 % 2 ^ 16 : Nat) : Int) - 0x7F80 ∧
      ((a / 2 ^ 16 % 2 ^ 16 : Nat) : Int) - 0x7F80 < 256) := by omega
  simp only [create_pat]
  rw [if_neg hl, if_neg hcond]

/-- C3: for every address in the supported window `0x80000000..0x807FFFFF`
and payload of length 1..251, `create_pat` returns the record
`"PAT" ++ byte(4 + len p) ++ byte(((a >> 16) & 0xFFFF) - 0x7F80)
++ byte(len p) ++ be16(a & 0xFFFF) ++ p`, and decoding that record by the
documented layout recovers exactly `(a, p)`. -/
theorem claim_C3_roundtrip (a : Nat) (p : List Nat)
    (ha1 : 0x80000000 ≤ a) (ha2 : a ≤ 0x807FFFFF)
    (hp1 : 1 ≤ p.length) (hp2 : p.length ≤ 251) :
    create_pat a p = .ok (PAT ++ [4 + p.length] ++
      [a / 2 ^ 16 % 2 ^ 16 - 0x7F80, p.length, a % 2 ^ 16 / 2 ^ 8,
       a % 2 ^ 16 % 2 ^ 8] ++ p) ∧
    decode_pat (PAT ++ [4 + p.length] ++
      [a / 2 ^ 16 % 2 ^ 16 - 0x7F80, p.length, a % 2 ^ 16 / 2 ^ 8,
       a % 2 ^ 16 % 2 ^ 8] ++ p) = some (a, p) := by
  constructor
  · exact create_pat_ok a p hp2 (by omega) (by omega)
  · show decode_pat (80 :: 65 :: 84 :: (4 + p.length) ::
        (a / 2 ^ 16 % 2 ^ 16 - 0x7F80) :: p.length :: (a % 2 ^ 16 / 2 ^ 8) ::
        (a % 2 ^ 16 % 2 ^ 8) :: p) = some (a, p)
    simp only [decode_pat]
    rw [if_pos ⟨rfl, trivial, trivial⟩]
    have haddr : (a / 2 ^ 16 % 2 ^ 16 - 0x7F80 + 0x7F80) * 2 ^ 16 +
        (a % 2 ^ 16 / 2 ^ 8 * 2 ^ 8 + a % 2 ^ 16 % 2 ^ 8) = a := by omega
    rw [haddr]

/-- Witness for C3 at `a = 0x80123456`, `p = [1, 2]`. -/
theorem claim_C3_roundtrip_witness :
    create_pat 0x80123456 [1, 2] = .ok (PAT ++ [4 + List.length [1, 2]] ++
      [0x80123456 / 2 ^ 16 % 2 ^ 16 - 0x7F80, List.length [1, 2],
       0x80123456 % 2 ^ 16 / 2 ^ 8, 0x80123456 % 2 ^ 16 % 2 ^ 8] ++ [1, 2]) ∧
    decode_pat (PAT ++ [4 + List.length [1, 2]] ++
      [0x80123456 / 2 ^ 16 % 2 ^ 16 - 0x7F80, List.length [1, 2],
       0x80123456 % 2 ^ 16 / 2 ^ 8, 0x80123456 % 2 ^ 16 % 2 ^ 8] ++ [1, 2]) =
      some (0x80123456, [1, 2]) :=
  claim_C3_roundtrip 0x80123456 [1, 2] (by decide) (by decide) (by decide)
    (by decide)

/-- C4 counterexample: the empty payload's length 0 lies outside `[1, 251]`,
yet `create_pat` succeeds on it instead of failing with `PayloadTooLarge`
(the source only checks `len(payload) > 251`). -/
theorem claim_C4_counterexample :
    create_pat 0x80000000 ([] : List Nat) = .ok [80, 65, 84, 4, 128, 0, 0, 0] ∧
    ¬ 1 ≤ ([] : List Nat).length := by decide

/-- C4 amended: `create_pat` fails with `PayloadTooLarge` if and only if the
payload length exceeds 251 (length 0 is accepted); in particular it fails
for length 252 and, for in-window addresses, succeeds for length 251. -/
theorem claim_C4_payload_check (a : Nat) (p : List Nat) :
    (create_pat a p = .error .payloadTooBig ↔ 251 < p.length) ∧
    (0x80000000 ≤ a → a ≤ 0x807FFFFF → p.length ≤ 251 →
      isOkE (create_pat a p) = true) := by
  constructor
  · constructor
    · intro h
      by_contra hl
      exact create_pat_not_too_big a p hl h
    · exact create_pat_too_big a p
  · intro h1 h2 h3
    rw [create_pat_ok a p h3 (by omega) (by omega)]
    rfl

/-- Witness for C4 (amended): a 252-byte payload fails with the
payload-size error, and a 251-byte payload at an in-window address
succeeds. -/
theorem claim_C4_payload_check_witness :
    (create_pat 0x80000000 (List.replicate 252 0) = .error .payloadTooBig ↔
      251 < (List.replicate 252 0).length) ∧
    isOkE (create_pat 0x80000000 (List.replicate 251 0)) = true :=
  ⟨(claim_C4_payload_check 0x80000000 (List.replicate 252 0)).1,
   (claim_C4_payload_check 0x80000000 (List.replicate 251 0)).2 (by decide)
     (by decide) (by rw [List.length_replicate])⟩

/-- C8 counterexample: address 0 is outside the window
`0x80000000..0x807FFFFF` (with an in-range 1-byte payload), and `create_pat`
does NOT return a record there: packing the negative `off_high` fails with a
`struct` range error. -/
theorem claim_C8_counterexample :
    create_pat 0 [0] = .error .structRangeError ∧ (0 : Nat) < 0x80000000 := by
  decide

/-- C8 amended: `create_pat` performs no explicit address-window validation.
Whenever the high halfword `(a >> 16) & 0xFFFF` lies in `0x7F80..0x807F` a
record is produced — including for the addresses `0x7F800000..0x7FFFFFFF`
that lie outside the documented window — and for every other address
`struct.pack` fails on the out-of-byte-range `off_high` rather than through
any explicit window check. -/
theorem claim_C8_no_window_check (a : Nat) (p : List Nat)
    (hp : p.length ≤ 251) :
    (0x7F80 ≤ a / 2 ^ 16 % 2 ^ 16 → a / 2 ^ 16 % 2 ^ 16 ≤ 0x807F →
      isOkE (create_pat a p) = true) ∧
    (a / 2 ^ 16 % 2 ^ 16 < 0x7F80 →
      create_pat a p = .error .structRangeError) ∧
    (0x807F < a / 2 ^ 16 % 2 ^ 16 →
      create_pat a p = .error .structRangeError) := by
  refine ⟨fun h1 h2 => ?_, fun h => ?_, fun h => ?_⟩
  · rw [create_pat_ok a p hp h1 h2]
    rfl
  · exact create_pat_struct_err a p (Nat.not_lt.mpr hp) (Or.inl h)
  · exact create_pat_struct_err a p (Nat.not_lt.mpr hp) (Or.inr h)

/-- Witness for C8 (amended): `0x7F800000` is outside the documented window
yet encodes to a record, and `0x00200000` fails with the packing range
error. -/
theorem claim_C8_no_window_check_witness :
    isOkE (create_pat 0x7F800000 [7]) = true ∧
    create_pat 0x00200000 [7] = .error .structRangeError :=
  ⟨(claim_C8_no_window_check 0x7F800000 [7] (by decide)).1 (by decide)
     (by decide),
   (claim_C8_no_window_check 0x00200000 [7] (by decide)).2.1 (by decide)⟩

/-- C7: under `--autoheader a` with an `n`-byte payload, the transformed
payload is the 16-byte header of four big-endian u32 fields
`{patch_count = 1, address = a, size = n, is_entry = 1}` followed by the `n`
raw payload bytes, and the declared payload-length field (16-byte units) is
computed from the compiled blob's total length `n + 16`, not from the
original `n`; at scenario C's concrete input (`a = 0x80100000`, 1024 zero
bytes) the stored field bytes are `[0, 65]`, i.e. `1040 / 16`. -/
theorem claim_C7_autoheader (a : Nat) (rom : List Nat) :
    autoheader_transform a rom =
      pack_int 1 ++ pack_int a ++ pack_int rom.length ++ pack_int 1 ++ rom ∧
    (autoheader_transform a rom).length = rom.length + 16 ∧
    nes_rom_len true (autoheader_transform a rom) = rom.length + 16 ∧
    nes_rom_len true (autoheader_transform a rom) ≠ rom.length ∧
    declared_rom_size true (autoheader_transform a rom) =
      pack_short ((rom.length + 16) / 2 ^ 4) ∧
    declared_rom_size true
      (autoheader_transform 0x80100000 (List.replicate 1024 0)) = [0, 65] := by
  have hlen : (autoheader_transform a rom).length = rom.length + 16 := by
    rw [autoheader_transform, List.length_append]
    have h16 : (loader_header a rom.length).length = 16 := rfl
    rw [h16]
    omega
  have hnes : nes_rom_len true (autoheader_transform a rom) = rom.length + 16 := by
    rw [nes_rom_len, if_neg (fun h => absurd h.2 (by decide))]
    exact hlen
  have hconc : declared_rom_size true
      (autoheader_transform 0x80100000 (List.replicate 1024 0)) = [0, 65] := by
    have hn : nes_rom_len true
        (autoheader_transform 0x80100000 (List.replicate 1024 0)) = 1040 := by
      rw [nes_rom_len, if_neg (fun h => absurd h.2 (by decide)),
        autoheader_transform, List.length_append, List.length_replicate]
      decide
    rw [declared_rom_size, hn]
    decide
  refine ⟨rfl, hlen, hnes, by omega, ?_, hconc⟩
  rw [declared_rom_size, hnes]
